import Mathlib

/-!
# Verification of the ReadScore readability analyzer

A shallow embedding of `src/analyzer.js` (the `ReadScoreAnalyzer` object).
Strings are processed as `List Char`; each JavaScript regular-expression
replacement used by the source is translated into an explicit left-to-right
scanner with the same match/replace semantics (leftmost match, greedy
quantifiers with the backtracking the concrete pattern allows, continuation
after the match end).  JavaScript numbers are modelled by `ℚ`; `Math.round`
is rounding half toward positive infinity.  Character classes follow the
ASCII reading of the source's regexes (`\w` = `[A-Za-z0-9_]`, `[A-Z]` ASCII);
`toLowerCase`/`toUpperCase` are modelled on ASCII letters.
-/

namespace ReadScore

/-! ## Character classes -/

/-- JavaScript `\s` (the whitespace characters relevant to this code base):
space, tab, line feed, vertical tab, form feed, carriage return and the
non-breaking space U+00A0. -/
def jsWs (c : Char) : Bool :=
  c = ' ' || c = '\t' || c = '\n' || c = Char.ofNat 11 || c = Char.ofNat 12 ||
  c = '\r' || c = Char.ofNat 160

/-- JavaScript `\w`: ASCII letters, digits and underscore. -/
def isWordChar (c : Char) : Bool :=
  ('a' ≤ c && c ≤ 'z') || ('A' ≤ c && c ≤ 'Z') || ('0' ≤ c && c ≤ '9') || c = '_'

/-- ASCII letter, the class `[a-zA-Z]`. -/
def isAsciiLetter (c : Char) : Bool :=
  ('a' ≤ c && c ≤ 'z') || ('A' ≤ c && c ≤ 'Z')

/-- The class `[A-Z]`. -/
def isUpperAZ (c : Char) : Bool := 'A' ≤ c && c ≤ 'Z'

/-- The class `[0-9]` (`\d`). -/
def isDigitC (c : Char) : Bool := '0' ≤ c && c ≤ '9'

/-- ASCII `toLowerCase`. -/
def lowerC (c : Char) : Char := c.toLower

/-- ASCII `toUpperCase`. -/
def upperC (c : Char) : Char := c.toUpper

/-! ## Generic list utilities -/

/-- `String.prototype.trim`: drop `jsWs` characters from both ends. -/
def trimL (l : List Char) : List Char :=
  ((l.dropWhile jsWs).reverse.dropWhile jsWs).reverse

/-- Collapse every maximal run of `' '` characters to a single space
(used after mapping all whitespace characters to `' '`, together they
implement `.replace(/\s+/g, ' ')`). -/
def squeezeSpaces : List Char → List Char
  | [] => []
  | [c] => [c]
  | a :: b :: rest =>
    if a = ' ' && b = ' ' then squeezeSpaces (b :: rest)
    else a :: squeezeSpaces (b :: rest)

/-- `.replace(/\s+/g, ' ')`: every run of whitespace becomes one space. -/
def collapseWs (l : List Char) : List Char :=
  squeezeSpaces (l.map (fun c => if jsWs c then ' ' else c))

/-- `String.prototype.split('-')`-style split of a character list at a
separator character; adjacent separators yield empty pieces, like in JS. -/
def splitOnChar (sep : Char) : List Char → List (List Char)
  | [] => [[]]
  | c :: rest =>
    if c = sep then [] :: splitOnChar sep rest
    else
      match splitOnChar sep rest with
      | h :: t => (c :: h) :: t
      | [] => [[c]]

/-- Does `l` start with `pre`? -/
def startsWithL : List Char → List Char → Bool
  | [], _ => true
  | _ :: _, [] => false
  | p :: ps, c :: cs => p = c && startsWithL ps cs

/-- `startsWithL` up to ASCII case (for case-insensitive regex matching;
the pattern `pre` is given lowercase). -/
def startsWithCI : List Char → List Char → Bool
  | [], _ => true
  | _ :: _, [] => false
  | p :: ps, c :: cs => p = lowerC c && startsWithCI ps cs

/-- Does `l` end with `suf`? -/
def endsWithL (l suf : List Char) : Bool :=
  startsWithL suf.reverse l.reverse

/-- `String.prototype.split` on a multi-character separator string
(assumed nonempty, as in every use below); adjacent/trailing separators
yield empty pieces, like in JS.  Recursion is on a fuel argument
initialised to the list length: every step consumes at least one
character, so the fuel never runs out before the list does. -/
def splitOnSeqGo (sep : List Char) : Nat → List Char → List (List Char)
  | 0, _ => [[]]
  | _ + 1, [] => [[]]
  | fuel + 1, c :: rest =>
    if sep ≠ [] && startsWithL sep (c :: rest) then
      [] :: splitOnSeqGo sep fuel ((c :: rest).drop sep.length)
    else
      match splitOnSeqGo sep fuel rest with
      | h :: t => (c :: h) :: t
      | [] => [[c]]

def splitOnSeq (sep : List Char) (l : List Char) : List (List Char) :=
  splitOnSeqGo sep l.length l

/-- `String.prototype.replaceAll` on a literal pattern (a `/g` regex on a
literal): leftmost, non-overlapping occurrences replaced left to right
(fuel recursion as in `splitOnSeqGo`). -/
def replaceSeqGo (pat repl : List Char) : Nat → List Char → List Char
  | 0, l => l
  | _ + 1, [] => []
  | fuel + 1, c :: rest =>
    if pat ≠ [] && startsWithL pat (c :: rest) then
      repl ++ replaceSeqGo pat repl fuel ((c :: rest).drop pat.length)
    else
      c :: replaceSeqGo pat repl fuel rest

def replaceSeq (pat repl : List Char) (l : List Char) : List Char :=
  replaceSeqGo pat repl l.length l

/-- `Array.prototype.map((x, i) => ...)`: map with the element index. -/
def mapWithIndex (f : Nat → α → β) : Nat → List α → List β
  | _, [] => []
  | i, a :: rest => f i a :: mapWithIndex f (i + 1) rest

/-! ## Syllable estimator (`countSyllables`, `SYLLABLE_OVERRIDES`) -/

/-- `SYLLABLE_OVERRIDES`: syllable-count overrides for common exceptions. -/
def SYLLABLE_OVERRIDES : List (String × Nat) :=
  [("business", 2), ("every", 2), ("different", 2), ("interest", 2),
   ("evening", 2), ("family", 2), ("several", 2), ("general", 2),
   ("natural", 2), ("actually", 3), ("chocolate", 2), ("favorite", 2),
   ("vegetable", 3), ("comfortable", 3), ("reasonable", 3),
   ("important", 3), ("beautiful", 3), ("possible", 3), ("terrible", 3),
   ("difficult", 3), ("wonderful", 3), ("carefully", 3), ("probably", 3),
   ("especially", 4), ("interesting", 4), ("unfortunately", 5)]

/-- The vowel test of `countSyllables`: one of `aeiou`, or `y` at a
non-initial position. -/
def isVowelAt (c : Char) (i : Nat) : Bool :=
  c = 'a' || c = 'e' || c = 'i' || c = 'o' || c = 'u' || (c = 'y' && i > 0)

/-- Count transitions into a vowel group (the `for` loop of
`countSyllables`), carrying the index and the previous character's
vowel status. -/
def countVowelGroups : Nat → Bool → List Char → Nat
  | _, _, [] => 0
  | i, prevVowel, c :: rest =>
    let currVowel := isVowelAt c i
    (if currVowel && !prevVowel then 1 else 0) +
      countVowelGroups (i + 1) currVowel rest

/-- The vowel-pattern body of `countSyllables` (reached when the word is
longer than 2 characters, not an override and hyphen-free): count vowel
groups, then apply the silent-`e`, `-ed` and `-es` corrections in order,
each flooring at 1, and floor the final result at 1. -/
def countSyllablesCore (w : List Char) : Nat :=
  let syll0 := countVowelGroups 0 false w
  let syll1 :=
    if endsWithL w ['e'] && !endsWithL w ['l', 'e'] && !endsWithL w ['e', 'e'] &&
        !endsWithL w ['i', 'e'] then
      max 1 (syll0 - 1)
    else syll0
  let syll2 :=
    if endsWithL w ['e', 'd'] && w.length > 3 &&
        !(let beforeEd := w.getD (w.length - 3) ' '
          beforeEd = 't' || beforeEd = 'd') then
      max 1 (syll1 - 1)
    else syll1
  let syll3 :=
    if endsWithL w ['e', 's'] && w.length > 3 &&
        !(let beforeEs := w.getD (w.length - 3) ' '
          beforeEs = 's' || beforeEs = 'x' || beforeEs = 'z' || beforeEs = 'h') &&
        !endsWithL w ['c', 'h', 'e', 's'] && !endsWithL w ['s', 'h', 'e', 's'] then
      max 1 (syll2 - 1)
    else syll2
  max 1 syll3

/-- `countSyllables` applied to one hyphen-separated part.  Parts produced
by splitting on `'-'` contain no hyphen, so on them the source's recursive
call never reaches its own hyphen branch; this function is that recursive
call with the (unreachable) hyphen branch omitted.  Like
`countSyllables` it is the numeric restriction of the source: on a part
equal to `constructor` or `__proto__` the source's prototype-chain
lookup returns a truthy non-number — see `countSyllablesPartJS` below. -/
def countSyllablesPart (part : List Char) : Nat :=
  if part = [] then 0
  else
    let w := trimL (part.map lowerC)
    if w.length ≤ 2 then 1
    else
      match SYLLABLE_OVERRIDES.lookup (String.mk w) with
      | some n => n
      | none => countSyllablesCore w

/-- `countSyllables(word)`: falsy (empty) input yields 0; otherwise
lowercase and trim; length ≤ 2 yields 1; an override dictionary hit wins;
hyphenated words sum the counts of their parts; otherwise the
vowel-pattern count with corrections.

This is the numeric restriction of the source function: the JS override
lookup is a prototype-chain property access, so on the two words
`constructor` and `__proto__` (and hyphenated words with such a part)
the source returns a truthy non-number instead of an integer — see
`countSyllablesJS` below for the faithful value model.  On every other
word the two agree. -/
def countSyllables (word : String) : Nat :=
  if word = "" then 0
  else
    let w := trimL (word.toList.map lowerC)
    if w.length ≤ 2 then 1
    else
      match SYLLABLE_OVERRIDES.lookup (String.mk w) with
      | some n => n
      | none =>
        if w.contains '-' then
          ((splitOnChar '-' w).map countSyllablesPart).sum
        else countSyllablesCore w

/-! ### The faithful JS value model of `countSyllables`

The source's override check `if (this.SYLLABLE_OVERRIDES[word])` is a
plain-object property access, which walks the prototype chain.
`SYLLABLE_OVERRIDES` is an object literal, so beyond its own 26 keys the
access can hit a property of `Object.prototype`: its property names are
`constructor`, `hasOwnProperty`, `isPrototypeOf`, `propertyIsEnumerable`,
`toLocaleString`, `toString`, `valueOf`, `__defineGetter__`,
`__defineSetter__`, `__lookupGetter__`, `__lookupSetter__` and
`__proto__`.  The word is lowercased before the lookup and property
access is case-sensitive, so exactly the two all-lowercase names
`constructor` and `__proto__` are reachable; both resolve to truthy
non-numbers (the `Object` constructor function, `Object.prototype`), and
line 110 then returns that value instead of an integer.  In the hyphen
branch, `sum + countSyllables(part)` with such a part turns the running
sum into a string, and a string stays a string under further `+`.

`countSyllablesJS` models the full behaviour: `SyllableJS.num n` is a JS
number result, `SyllableJS.nonNumber` any of the non-number results (a
function, an object, or a concatenated string — no claim distinguishes
them).  The `Nat`-valued `countSyllables` above is its numeric
restriction, used by the downstream pipeline model; the two agree on
every word except `constructor`/`__proto__` (and hyphenated words with
such a part).  The own-key/prototype split below is equivalent to the
source's single access because the 26 own keys and the two reachable
prototype names are disjoint, and all own values (2–5) are truthy. -/

inductive SyllableJS where
  | num (n : Nat)
  | nonNumber
  deriving DecidableEq, Repr

/-- Does a (lowercased, trimmed) word collide with a reachable
`Object.prototype` property name? -/
def hitsPrototype (s : String) : Prop :=
  s = "constructor" ∨ s = "__proto__"

instance (s : String) : Decidable (hitsPrototype s) := by
  unfold hitsPrototype
  exact inferInstance

/-- JS `+` on the reduce accumulator: number plus number adds; any
non-number operand produces (and keeps producing) a string. -/
def jsAdd : SyllableJS → SyllableJS → SyllableJS
  | .num a, .num b => .num (a + b)
  | _, _ => .nonNumber

/-- `countSyllables` on one hyphen-separated part, as a JS value
(the recursive call of the source's `reduce`; parts contain no hyphen,
so the hyphen branch is unreachable and omitted, as in
`countSyllablesPart`). -/
def countSyllablesPartJS (part : List Char) : SyllableJS :=
  if part = [] then .num 0
  else
    let w := trimL (part.map lowerC)
    if w.length ≤ 2 then .num 1
    else
      match SYLLABLE_OVERRIDES.lookup (String.mk w) with
      | some n => .num n
      | none =>
        if hitsPrototype (String.mk w) then .nonNumber
        else .num (countSyllablesCore w)

/-- `countSyllables(word)` as a JS value, prototype-chain lookups
included. -/
def countSyllablesJS (word : String) : SyllableJS :=
  if word = "" then .num 0
  else
    let w := trimL (word.toList.map lowerC)
    if w.length ≤ 2 then .num 1
    else
      match SYLLABLE_OVERRIDES.lookup (String.mk w) with
      | some n => .num n
      | none =>
        if hitsPrototype (String.mk w) then .nonNumber
        else if w.contains '-' then
          ((splitOnChar '-' w).map countSyllablesPartJS).foldl jsAdd (.num 0)
        else .num (countSyllablesCore w)

/-! ## Regex scanners shared by `extractWords` and `extractSentences`

Each scanner walks the character list left to right exactly as the JS
regex engine scans for `/g` matches: at each position it checks whether a
match starts there, and on success emits the replacement and continues
after the match end, otherwise emits the character and moves one position
on.  The scanners recurse on a fuel argument initialised to the list
length; every step consumes at least one character, so the fuel never
runs out before the list does. -/

/-- `/https?:\/\/[^\s]+/g` replaced by `repl`. -/
def scanUrlsGo (repl : List Char) : Nat → List Char → List Char
  | 0, l => l
  | _ + 1, [] => []
  | fuel + 1, c :: rest =>
    let l := c :: rest
    let prefLen : Nat :=
      if startsWithL "https://".toList l then 8
      else if startsWithL "http://".toList l then 7
      else 0
    if prefLen = 0 then c :: scanUrlsGo repl fuel rest
    else
      let tail := l.drop prefLen
      let run := tail.takeWhile (fun c => !jsWs c)
      if run.length = 0 then c :: scanUrlsGo repl fuel rest
      else repl ++ scanUrlsGo repl fuel (tail.drop run.length)

def scanUrls (repl : List Char) (l : List Char) : List Char :=
  scanUrlsGo repl l.length l

/-- The regex class `[\w.-]` of the email pattern. -/
def emailChar (c : Char) : Bool := isWordChar c || c = '.' || c = '-'

/-- Index of the last `'.'` in `R` that is directly followed by a `\w`
character (the backtracking target of `[\w.-]+\.\w+`: the greedy second
class gives back characters until the final `\.\w+` can match, so the
largest such index wins). -/
def lastDotWord : List Char → Option Nat
  | [] => none
  | [_] => none
  | a :: b :: rest =>
    match lastDotWord (b :: rest) with
    | some k => some (k + 1)
    | none => if a = '.' && isWordChar b then some 0 else none

/-- `/[\w.-]+@[\w.-]+\.\w+/g` replaced by `repl`.  A leftmost match can
only begin at the start of a maximal `[\w.-]` run (positions further into
the run see the same run end and the same continuation), so on failure the
whole run is emitted at once. -/
def scanEmailsGo (repl : List Char) : Nat → List Char → List Char
  | 0, l => l
  | _ + 1, [] => []
  | fuel + 1, c :: rest =>
    if emailChar c then
      let runA := rest.takeWhile emailChar
      let afterA := rest.drop runA.length
      match afterA with
      | '@' :: afterAt =>
        let runB := afterAt.takeWhile emailChar
        match lastDotWord runB with
        | some k =>
          let afterDot := afterAt.drop (k + 1)
          let wordRun := afterDot.takeWhile isWordChar
          repl ++ scanEmailsGo repl fuel (afterDot.drop wordRun.length)
        | none => (c :: runA) ++ '@' :: scanEmailsGo repl fuel afterAt
      | _ => (c :: runA) ++ scanEmailsGo repl fuel afterA
    else c :: scanEmailsGo repl fuel rest

def scanEmails (repl : List Char) (l : List Char) : List Char :=
  scanEmailsGo repl l.length l

/-! ## `extractWords` -/

/-- The unit alternation of the number regex, in source order. -/
def NUMBER_UNITS : List (List Char) :=
  ["%".toList, "px".toList, "em".toList, "rem".toList, "pt".toList,
   "cm".toList, "mm".toList, "in".toList, "kg".toList, "lb".toList,
   "oz".toList, "km".toList, "mi".toList, "mph".toList, "fps".toList]

/-- `\b` of the number regex at the position between `before` (the last
character of the candidate match) and the head of `after`: a boundary
holds iff exactly one side is a `\w` character (end of input counts as
non-word). -/
def wordBoundary (before : Char) (after : List Char) : Bool :=
  match after with
  | [] => isWordChar before
  | c :: _ => isWordChar before != isWordChar c

/-- Greedy `([.,]\d+)*`: consume as many `[.,]`+digits groups as possible,
returning the text after each prefix of groups, most groups first (the
order in which backtracking retries them). -/
def numGroupEnds : Nat → List Char → List (List Char)
  | 0, l => [l]
  | fuel + 1, l =>
    match l with
    | s :: c :: rest =>
      if (s = '.' || s = ',') && isDigitC c then
        let digits := rest.takeWhile isDigitC
        numGroupEnds fuel (rest.drop digits.length) ++ [l]
      else [l]
    | _ => [l]

/-- Try `\s*(unit)?\b` from `l`, with `prevChar` the character before `l`
inside the candidate match.  Greedy `\s*` backtracks from the full
whitespace run down to none; for each prefix the units are tried in
alternation order, then the empty option; the first composition whose end
position is a word boundary gives the match end.  Returns the rest of the
input after the match, if any composition succeeds. -/
def tryUnitEnd (prevChar : Char) (l : List Char) : Option (Char × List Char) :=
  let wsRun := l.takeWhile jsWs
  let tryAt : Nat → Option (Char × List Char) := fun wlen =>
    let before := if wlen = 0 then prevChar else l.getD (wlen - 1) ' '
    let after := l.drop wlen
    let unitHit := NUMBER_UNITS.filterMap (fun u =>
      if startsWithCI u after && wordBoundary (u.getLastD ' ') (after.drop u.length) then
        some (after.getD (u.length - 1) ' ', after.drop u.length)
      else none)
    match unitHit with
    | r :: _ => some r
    | [] => if wordBoundary before after then some (before, after) else none
  ((List.range (wsRun.length + 1)).reverse.filterMap tryAt).head?

/-- `/\b\d+([.,]\d+)*\s*(%|px|em|rem|pt|cm|mm|in|kg|lb|oz|km|mi|mph|fps)?\b/gi`
replaced by the empty string (standalone numbers, optionally with a unit
suffix, are removed).  `prev` is the character before the current
position, for the leading `\b`. -/
def scanNumbersGo : Nat → Option Char → List Char → List Char
  | 0, _, l => l
  | _ + 1, _, [] => []
  | fuel + 1, prev, c :: rest =>
    let boundaryBefore :=
      match prev with
      | none => true
      | some p => !isWordChar p
    if boundaryBefore && isDigitC c then
      let digits := rest.takeWhile isDigitC
      let afterDigits := rest.drop digits.length
      -- candidate ends after each group prefix, most groups first; the
      -- character preceding each candidate is always a digit, and the
      -- boundary test only consults `isWordChar`, so `'0'` stands for it
      let ends := numGroupEnds afterDigits.length afterDigits
      let found := ends.filterMap (fun e => tryUnitEnd '0' e)
      match found with
      | (lastC, restAfter) :: _ => scanNumbersGo fuel (some lastC) restAfter
      | [] => c :: scanNumbersGo fuel (some c) rest
    else c :: scanNumbersGo fuel (some c) rest

def scanNumbers (l : List Char) : List Char :=
  scanNumbersGo l.length none l

/-- `extractWords(text)`: strip URLs, emails, bracket characters,
standalone numbers (with optional units); replace the remaining
non-word/non-whitespace characters other than apostrophe and hyphen by
spaces; collapse whitespace and trim; split on whitespace; lowercase,
split apostrophe-free hyphenated compounds; filter short tokens, tokens
not starting with a letter, tokens under 50% letters, and
punctuation-only remnants. -/
def extractWords (text : String) : List String :=
  if text = "" then []
  else
    let cleaned :=
      text.toList
      |> scanUrls []
      |> scanEmails []
      |> List.map (fun c =>
          if c = '<' || c = '>' || c = '{' || c = '}' || c = '[' || c = ']' then ' '
          else c)
      |> scanNumbers
      |> List.map (fun c =>
          if isWordChar c || jsWs c || c = '\'' || c = '-' then c else ' ')
      |> collapseWs
      |> trimL
    let tokens :=
      (splitOnChar ' ' cleaned).flatMap (fun w0 =>
        let w := trimL (w0.map lowerC)
        if w.contains '-' && !w.contains '\'' then
          (splitOnChar '-' w).filter (fun p => p.length > 0)
        else [w])
    (tokens.filter (fun w =>
      w.length ≥ 2 &&
      (match w with
       | c :: _ => isAsciiLetter c
       | [] => false) &&
      2 * (w.filter isAsciiLetter).length ≥ w.length &&
      !(w.all (fun c => c = '-' || c = '\'')))).map String.mk

/-! ## `extractSentences` -/

/-- `ABBREVIATIONS` in `Set` insertion order with duplicates dropped
(the source lists `'ms'` twice; a JS `Set` keeps the first). -/
def ABBREVIATIONS : List String :=
  ["mr", "mrs", "ms", "dr", "prof", "sr", "jr", "vs", "etc", "inc", "ltd", "corp",
   "eg", "ie", "al", "vol", "no", "pp", "ed", "est", "approx", "dept", "govt",
   "jan", "feb", "mar", "apr", "may", "jun", "jul", "aug", "sep", "oct", "nov", "dec",
   "mon", "tue", "wed", "thu", "fri", "sat", "sun",
   "st", "nd", "rd", "th", "ave", "blvd", "ct", "ln", "ft", "lb", "oz",
   "u", "s", "a", "b", "c", "d", "e", "f", "g", "h", "i", "j", "k", "l", "m",
   "n", "o", "p", "q", "r", "t", "v", "w", "x", "y", "z",
   "ph", "ba", "ma", "bs", "mba", "ceo", "cto", "cfo"]

def abbrevPats : List (List Char) := ABBREVIATIONS.map String.toList

/-- `/(\d)\.(\d)/g` → `'$1<DEC>$2'`: protect decimal points between
digits; the second digit is consumed, so scanning continues after it. -/
def protectDecimals : List Char → List Char
  | a :: '.' :: b :: rest =>
    if isDigitC a && isDigitC b then
      a :: ("<DEC>".toList ++ b :: protectDecimals rest)
    else a :: protectDecimals ('.' :: b :: rest)
  | a :: rest => a :: protectDecimals rest
  | [] => []

/-- `/\$[\d,.]+/g` with each `'.'` of the match rewritten to `<DEC>`
(the `match.replace(/\./g, '<DEC>')` replacement callback). -/
def protectCurrencyGo : Nat → List Char → List Char
  | 0, l => l
  | _ + 1, [] => []
  | fuel + 1, c :: rest =>
    if c = '$' then
      let run := rest.takeWhile (fun d => isDigitC d || d = ',' || d = '.')
      if run.length = 0 then c :: protectCurrencyGo fuel rest
      else
        c :: (run.flatMap (fun d => if d = '.' then "<DEC>".toList else [d]) ++
          protectCurrencyGo fuel (rest.drop run.length))
    else c :: protectCurrencyGo fuel rest

def protectCurrency (l : List Char) : List Char := protectCurrencyGo l.length l

/-- `/\.{2,}/g` → `'<ELLIP>'`: protect runs of two or more periods. -/
def protectEllipsisGo : Nat → List Char → List Char
  | 0, l => l
  | _ + 1, [] => []
  | fuel + 1, c :: rest =>
    if c = '.' && (match rest with | '.' :: _ => true | _ => false) then
      let dots := rest.takeWhile (fun d => d = '.')
      "<ELLIP>".toList ++ protectEllipsisGo fuel (rest.drop dots.length)
    else c :: protectEllipsisGo fuel rest

def protectEllipsis (l : List Char) : List Char := protectEllipsisGo l.length l

/-- The first abbreviation of `abbrevPats` (regex alternation order) that
matches case-insensitively at the head of `l`, is followed by `'.'`, with
the `(?=\s|$)` lookahead satisfied after the period. -/
def findAbbrev (l : List Char) : Option (List Char) :=
  abbrevPats.find? (fun a =>
    startsWithCI a l && l.getD a.length 'x' = '.' &&
    (match l.drop (a.length + 1) with
     | [] => true
     | d :: _ => jsWs d))

/-- The abbreviation regex `` `\b(${abbrPattern})\.(?=\s|$)` `` (flags
`gi`) → `'$1<ABBR>'`: the matched text keeps its original case and the
period becomes `<ABBR>`; `prev` is the character before the current
position for the `\b` test, and after a match scanning resumes after the
period. -/
def protectAbbrevsGo : Nat → Option Char → List Char → List Char
  | 0, _, l => l
  | _ + 1, _, [] => []
  | fuel + 1, prev, c :: rest =>
    let l := c :: rest
    let boundary := match prev with | none => true | some p => !isWordChar p
    match if boundary then findAbbrev l else none with
    | some a =>
      l.take a.length ++ "<ABBR>".toList ++
        protectAbbrevsGo fuel (some '.') (l.drop (a.length + 1))
    | none => c :: protectAbbrevsGo fuel (some c) rest

def protectAbbrevs (l : List Char) : List Char := protectAbbrevsGo l.length none l

/-- `/\b([A-Z])\.\s(?=[A-Z]\.?\s?)/g` → `'$1<INIT> '`: a capital at a word
boundary, a period and one whitespace character, looking ahead at a
capital (the optional `\.?\s?` parts of the lookahead can match the empty
string, so the lookahead reduces to the capital). -/
def protectInitialsGo : Nat → Option Char → List Char → List Char
  | 0, _, l => l
  | _ + 1, _, [] => []
  | fuel + 1, prev, c :: rest =>
    let boundary := match prev with | none => true | some p => !isWordChar p
    match rest with
    | '.' :: w :: rest2 =>
      if boundary && isUpperAZ c && jsWs w &&
          (match rest2 with | d :: _ => isUpperAZ d | [] => false) then
        c :: ("<INIT> ".toList ++ protectInitialsGo fuel (some w) rest2)
      else c :: protectInitialsGo fuel (some c) rest
    | _ => c :: protectInitialsGo fuel (some c) rest

def protectInitials (l : List Char) : List Char := protectInitialsGo l.length none l

/-- `/^(\d+)\.\s/gm` → `'$1<NUM> '`.  After whitespace collapsing the text
has no line breaks, so despite the `m` flag the anchor can only match at
the very start. -/
def protectNumStart (l : List Char) : List Char :=
  let digits := l.takeWhile isDigitC
  if digits.length = 0 then l
  else
    match l.drop digits.length with
    | '.' :: w :: rest => if jsWs w then digits ++ "<NUM> ".toList ++ rest else l
    | _ => l

/-- `/\s(\d+)\.\s/g` → `' $1<NUM> '`: numbered-list markers in the middle
of the text; the trailing whitespace is consumed by the match. -/
def protectNumMidGo : Nat → List Char → List Char
  | 0, l => l
  | _ + 1, [] => []
  | fuel + 1, c :: rest =>
    if jsWs c then
      let digits := rest.takeWhile isDigitC
      if digits.length = 0 then c :: protectNumMidGo fuel rest
      else
        match rest.drop digits.length with
        | '.' :: w :: rest2 =>
          if jsWs w then
            ' ' :: digits ++ "<NUM> ".toList ++ protectNumMidGo fuel rest2
          else c :: protectNumMidGo fuel rest
        | _ => c :: protectNumMidGo fuel rest
    else c :: protectNumMidGo fuel rest

def protectNumMid (l : List Char) : List Char := protectNumMidGo l.length l

/-- `/([.!?])\s+(?=[A-Z"'([{]|$)/g` → `'$1<SPLIT>'`: sentence-ending
punctuation followed by whitespace and a capital/quote/bracket (or the
end of the text); the whitespace run is consumed. -/
def markSplitsGo : Nat → List Char → List Char
  | 0, l => l
  | _ + 1, [] => []
  | fuel + 1, c :: rest =>
    if c = '.' || c = '!' || c = '?' then
      let wsRun := rest.takeWhile jsWs
      if wsRun.length = 0 then c :: markSplitsGo fuel rest
      else
        let after := rest.drop wsRun.length
        let ok := match after with
          | [] => true
          | d :: _ =>
            isUpperAZ d || d = '"' || d = '\'' || d = '(' || d = '[' || d = '{'
        if ok then c :: ("<SPLIT>".toList ++ markSplitsGo fuel after)
        else c :: markSplitsGo fuel rest
    else c :: markSplitsGo fuel rest

def markSplits (l : List Char) : List Char := markSplitsGo l.length l

/-- `/([.!?])$/g` → `'$1<SPLIT>'`: a split marker after terminal
punctuation at the very end of the text. -/
def endSplit (l : List Char) : List Char :=
  match l.reverse with
  | c :: _ => if c = '.' || c = '!' || c = '?' then l ++ "<SPLIT>".toList else l
  | [] => l

/-- Restore the protected markers inside one split piece and trim it. -/
def restorePiece (s : List Char) : List Char :=
  s
  |> replaceSeq "<URL>".toList "[URL]".toList
  |> replaceSeq "<EMAIL>".toList "[EMAIL]".toList
  |> replaceSeq "<ABBR>".toList ".".toList
  |> replaceSeq "<DEC>".toList ".".toList
  |> replaceSeq "<ELLIP>".toList "...".toList
  |> replaceSeq "<INIT>".toList ".".toList
  |> replaceSeq "<NUM>".toList ".".toList
  |> trimL

/-- `s.split(/\s+/)`: split at whitespace runs (a leading run yields a
leading empty piece, as in JS). -/
def splitWsRunsGo : Nat → List Char → List (List Char)
  | 0, _ => [[]]
  | _ + 1, [] => [[]]
  | fuel + 1, c :: rest =>
    if jsWs c then
      let run := rest.dropWhile jsWs
      [] :: splitWsRunsGo fuel run
    else
      match splitWsRunsGo fuel rest with
      | h :: t => (c :: h) :: t
      | [] => [[c]]

def splitWsRuns (l : List Char) : List (List Char) := splitWsRunsGo l.length l

/-- The final sentence filter: more than 5 characters and at least 3
whitespace-separated tokens containing an ASCII letter. -/
def sentenceFilter (s : List Char) : Bool :=
  s.length > 5 &&
  ((splitWsRuns s).filter (fun w => w.any isAsciiLetter)).length ≥ 3

/-- `extractSentences(text)`: normalize whitespace; protect URLs, emails,
decimals, currency, ellipses, abbreviations, initials and numbered-list
markers; split at terminal punctuation before a capital (and at the end
of the text); restore the protected markers; keep pieces that look like
real sentences. -/
def extractSentences (text : String) : List String :=
  if text = "" || (trimL text.toList).length = 0 then []
  else
    let normalized := trimL (replaceSeq [Char.ofNat 160] [' '] (collapseWs text.toList))
    let protected_ :=
      normalized
      |> scanUrls "<URL>".toList
      |> scanEmails "<EMAIL>".toList
      |> protectDecimals
      |> protectCurrency
      |> protectEllipsis
      |> protectAbbrevs
      |> protectInitials
      |> protectNumStart
      |> protectNumMid
    let marked := endSplit (markSplits protected_)
    let pieces := (splitOnSeq "<SPLIT>".toList marked).map restorePiece
    (pieces.filter sentenceFilter).map String.mk

/-! ## Clause counting (`countClauses`) -/

/-- The connective word list of `countClauses`, in source order. -/
def connectingWords : List String :=
  ["however", "therefore", "moreover", "furthermore", "nevertheless",
   "because", "since", "although", "though", "while", "whereas", "unless", "until",
   "which", "who", "whom", "whose", "where", "when", "whether",
   "if", "provided", "assuming"]

/-- The trailing `\b` after a matched word: next character non-word or end. -/
def boundaryAfterWord (rest : List Char) : Bool :=
  match rest with
  | [] => true
  | c :: _ => !isWordChar c

/-- Occurrences of `[,;]\s+word\b` (the non-anchor alternative of
`` `(?:^|[,;]\s+)\b${word}\b` ``); the match consumes the word, so
scanning resumes after it. -/
def countConnGo (w : List Char) : Nat → List Char → Nat
  | 0, _ => 0
  | _ + 1, [] => 0
  | fuel + 1, c :: rest =>
    if c = ',' || c = ';' then
      let run := rest.takeWhile jsWs
      if run.length = 0 then countConnGo w fuel rest
      else
        let after := rest.drop run.length
        if startsWithL w after && boundaryAfterWord (after.drop w.length) then
          1 + countConnGo w fuel (after.drop w.length)
        else countConnGo w fuel rest
    else countConnGo w fuel rest

/-- All matches of `` `(?:^|[,;]\s+)\b${word}\b` `` on the (already
lowercased) sentence: the `^` alternative can only fire at position 0;
later matches need the punctuation prefix. -/
def countConnective (w l : List Char) : Nat :=
  if startsWithL w l && boundaryAfterWord (l.drop w.length) then
    1 + countConnGo w (l.drop w.length).length (l.drop w.length)
  else countConnGo w l.length l

/-- Matches of `/\b(?<!so\s|such\s)that\b/gi` on the lowercased sentence;
`pre` is the reversed already-scanned prefix, consulted by the `\b` and
the negative lookbehind. -/
def countThatGo : Nat → List Char → List Char → Nat
  | 0, _, _ => 0
  | _ + 1, _, [] => 0
  | fuel + 1, pre, c :: rest =>
    let l := c :: rest
    let boundary := match pre with | [] => true | p :: _ => !isWordChar p
    let afterSo := match pre with
      | w :: 'o' :: 's' :: _ => jsWs w
      | _ => false
    let afterSuch := match pre with
      | w :: 'h' :: 'c' :: 'u' :: 's' :: _ => jsWs w
      | _ => false
    if boundary && !afterSo && !afterSuch && startsWithL "that".toList l &&
        boundaryAfterWord (l.drop 4) then
      1 + countThatGo fuel ('t' :: 'a' :: 'h' :: 't' :: pre) (l.drop 4)
    else countThatGo fuel (c :: pre) rest

def countThat (l : List Char) : Nat := countThatGo l.length [] l

/-- `countClauses(sentence)`: one main clause, plus one per semicolon or
colon, plus one per anchored connective-word occurrence, plus the number
of `that` occurrences (excluding `so that`/`such that`) capped at 3. -/
def countClauses (sentence : String) : Nat :=
  let strongPunctuation := (sentence.toList.filter (fun c => c = ';' || c = ':')).length
  let lowerSentence := sentence.toList.map lowerC
  let connectiveCount :=
    (connectingWords.map (fun w => countConnective w.toList lowerSentence)).sum
  let thatMatches := countThat lowerSentence
  1 + strongPunctuation + connectiveCount + min thatMatches 3

/-! ## Metric calculators and classifiers -/

/-- JavaScript `Math.round`: round half toward positive infinity. -/
def jsRound (q : ℚ) : ℤ := ⌊q + 1 / 2⌋

/-- `Math.round(x * 10) / 10`: round to one decimal place. -/
def jsRound10 (q : ℚ) : ℚ := (jsRound (q * 10) : ℚ) / 10

/-- `calculateFleschKincaid`: 0 when either count is 0; otherwise the
Flesch–Kincaid grade formula, rounded to one decimal and floored at 0. -/
def calculateFleschKincaid (totalWords totalSentences totalSyllables : Nat) : ℚ :=
  if totalSentences = 0 ∨ totalWords = 0 then 0
  else
    let avgWordsPerSentence : ℚ := totalWords / totalSentences
    let avgSyllablesPerWord : ℚ := (totalSyllables : ℚ) / totalWords
    let gradeLevel := 0.39 * avgWordsPerSentence + 11.8 * avgSyllablesPerWord - 15.59
    max 0 (jsRound10 gradeLevel)

structure ReadingTime where
  minutes : ℤ
  wpm : Nat
  formatted : String
  deriving DecidableEq, Repr

/-- `READING_SPEEDS` lookup by uppercased level name (`undefined` for
other keys, which the `||` then defaults to the medium speed). -/
def READING_SPEEDS (key : String) : Option Nat :=
  if key = "EASY" then some 275
  else if key = "MEDIUM" then some 250
  else if key = "HARD" then some 200
  else none

/-- `calculateReadingTime(wordCount, level)`. -/
def calculateReadingTime (wordCount : Nat) (level : String) : ReadingTime :=
  if wordCount = 0 then { minutes := 0, formatted := "< 1 min", wpm := 0 }
  else
    let baseWPM := (READING_SPEEDS (String.mk (level.toList.map upperC))).getD 250
    let exactMinutes : ℚ := (wordCount : ℚ) / baseWPM
    let minutes := jsRound exactMinutes
    let formatted :=
      if exactMinutes < 1 / 2 then "< 1 min"
      else if minutes = 1 then "1 min"
      else toString minutes ++ " mins"
    { minutes := minutes, wpm := baseWPM, formatted := formatted }

structure SentenceQuality where
  label : String
  colorClass : String
  quality : String
  deriving DecidableEq, Repr

/-- `classifySentenceQuality(avgLength)`. -/
def classifySentenceQuality (avgLength : ℚ) : SentenceQuality :=
  if avgLength < 8 then ⟨"Too Short", "quality-warning", "short"⟩
  else if avgLength ≤ 12 then ⟨"Short", "quality-good", "short-ok"⟩
  else if avgLength ≤ 18 then ⟨"Optimal", "quality-optimal", "optimal"⟩
  else if avgLength ≤ 25 then ⟨"Long", "quality-warning", "long"⟩
  else ⟨"Too Long", "quality-bad", "too-long"⟩

structure WordCountCategory where
  label : String
  colorClass : String
  category : String
  deriving DecidableEq, Repr

/-- `classifyWordCount(wordCount)`. -/
def classifyWordCount (wordCount : Nat) : WordCountCategory :=
  if wordCount < 300 then ⟨"Quick Read", "length-quick", "quick"⟩
  else if wordCount ≤ 700 then ⟨"Short", "length-short", "short"⟩
  else if wordCount ≤ 1400 then ⟨"Medium", "length-medium", "medium"⟩
  else if wordCount ≤ 2500 then ⟨"Long Read", "length-long", "long"⟩
  else ⟨"In-Depth", "length-deep", "deep"⟩

/-- `classifyReadability(avgSentenceLength, complexRatio, fkGrade,
wordCount)`: fewer than 100 words forces `Medium`; with a grade available
the grade bands decide, softened to `Medium` for short texts with a
`Hard` verdict under grade 15; otherwise a composite score of sentence
length and complex-word ratio decides, with the same softening. -/
def classifyReadability (avgSentenceLength complexRatio : ℚ) (fkGrade : Option ℚ)
    (wordCount : Nat) : String :=
  if wordCount < 100 then "Medium"
  else
    match fkGrade with
    | some fkg =>
      let level := if fkg ≤ 6 then "Easy" else if fkg ≤ 12 then "Medium" else "Hard"
      if wordCount < 300 ∧ level = "Hard" ∧ fkg < 15 then "Medium" else level
    | none =>
      let lengthScore : Nat :=
        if avgSentenceLength ≤ 14 then 0 else if avgSentenceLength ≤ 22 then 1 else 2
      let ratioScore : Nat :=
        if complexRatio ≤ 0.08 then 0 else if complexRatio ≤ 0.15 then 1 else 2
      let score := lengthScore + ratioScore
      let result := if score ≤ 1 then "Easy" else if score ≤ 2 then "Medium" else "Hard"
      if wordCount < 300 ∧ result = "Hard" then "Medium" else result

/-! ## Complex-word identification -/

/-- `COMMON_POLYSYLLABIC` (as a membership test the JS `Set`'s duplicated
`'everything'` entry is irrelevant). -/
def COMMON_POLYSYLLABIC : List String :=
  ["everyone", "everything", "everywhere", "however", "another",
   "together", "already", "although", "without", "because",
   "before", "between", "during", "often", "sometimes",
   "usually", "always", "really", "actually", "probably",
   "certainly", "definitely", "absolutely", "completely", "exactly",
   "important", "different", "beautiful", "wonderful", "interesting",
   "government", "understand", "information", "technology", "education",
   "community", "experience", "opportunity", "relationship", "remember",
   "something", "anything", "nothing", "somebody"]

/-- `[...new Set(xs)]`: deduplicate keeping the first occurrence. -/
def dedupKeepFirst (seen : List String) : List String → List String
  | [] => []
  | x :: rest =>
    if seen.contains x then dedupKeepFirst seen rest
    else x :: dedupKeepFirst (x :: seen) rest

structure ComplexWordData where
  words : List String
  count : Nat
  ratio : ℚ
  deriving DecidableEq, Repr

/-- `identifyComplexWords(words)`: a word is complex when it has at least
6 characters, is not in the easy-polysyllabic exclusion set and has an
estimated syllable count of at least 3. -/
def identifyComplexWords (words : List String) : ComplexWordData :=
  let complexWords := words.filter (fun word =>
    word.length ≥ 6 && !(COMMON_POLYSYLLABIC.contains word) &&
    countSyllables word ≥ 3)
  { words := dedupKeepFirst [] complexWords
    count := complexWords.length
    ratio := if words.length > 0 then (complexWords.length : ℚ) / words.length else 0 }

/-! ## Issue detectors -/

structure ComplexSentenceIssue where
  text : String
  clauseCount : Nat
  wordCount : Nat
  index : Nat
  paragraphIndex : Nat
  isComplex : Bool
  deriving DecidableEq, Repr

/-- The inner `forEach` of `identifyComplexSentences`: walk the sentences
of one paragraph, keeping the running global sentence index, and emit an
issue for each sentence with at least 3 clauses and at least 20 words. -/
def complexOfSentences (gIdx pIdx : Nat) : List String → List ComplexSentenceIssue
  | [] => []
  | s :: rest =>
    let clauseCount := countClauses s
    let words := extractWords s
    (if clauseCount ≥ 3 ∧ words.length ≥ 20 then
      [{ text := s, clauseCount := clauseCount, wordCount := words.length,
         index := gIdx, paragraphIndex := pIdx, isComplex := true }]
     else []) ++ complexOfSentences (gIdx + 1) pIdx rest

/-- The outer `forEach` of `identifyComplexSentences`, threading the
global sentence index across paragraphs. -/
def complexOfParagraphs (gIdx pIdx : Nat) : List String → List ComplexSentenceIssue
  | [] => []
  | para :: rest =>
    let pSentences := extractSentences para
    complexOfSentences gIdx pIdx pSentences ++
      complexOfParagraphs (gIdx + pSentences.length) (pIdx + 1) rest

/-- `identifyComplexSentences(paragraphs)`. -/
def identifyComplexSentences (paragraphs : List String) : List ComplexSentenceIssue :=
  complexOfParagraphs 0 0 paragraphs

structure DenseParagraphIssue where
  text : String
  index : Nat
  wordCount : Nat
  sentenceCount : Nat
  avgSentenceLength : ℚ
  isDense : Bool
  deriving DecidableEq, Repr

/-- The per-paragraph record built by `identifyDenseParagraphs` before
filtering: word and sentence counts, the rounded average sentence length,
and the three density triggers (`isDenseByLength`, `isVeryLong`,
`isComplexAndLong`, with `DENSE = 100` and `MIN_SENTENCES = 4`). -/
def denseRecord (index : Nat) (para : String) : DenseParagraphIssue :=
  let words := extractWords para
  let sentences := extractSentences para
  let avgSentenceLength : ℚ :=
    if sentences.length > 0 then (words.length : ℚ) / sentences.length else 0
  let isDenseByLength := words.length ≥ 100 ∧ sentences.length ≥ 4
  let isVeryLong := words.length ≥ 150
  let isComplexAndLong := words.length ≥ 80 ∧ avgSentenceLength ≥ 25
  { text := para
    index := index
    wordCount := words.length
    sentenceCount := sentences.length
    avgSentenceLength := jsRound10 avgSentenceLength
    isDense := decide (isDenseByLength ∨ isVeryLong ∨ isComplexAndLong) }

/-- `identifyDenseParagraphs(paragraphs)`: map each paragraph to its
density record and keep the dense ones. -/
def identifyDenseParagraphs (paragraphs : List String) : List DenseParagraphIssue :=
  (mapWithIndex denseRecord 0 paragraphs).filter (fun p => p.isDense)

/-! ## `analyzeText` -/

structure Issues where
  complexSentences : List ComplexSentenceIssue
  denseParagraphs : List DenseParagraphIssue
  deriving DecidableEq, Repr

structure AnalysisResult where
  level : String
  grade : ℚ
  readingTime : ReadingTime
  wordCount : Nat
  wordCountCategory : WordCountCategory
  sentenceCount : Nat
  avgSentenceLength : ℚ
  sentenceQuality : SentenceQuality
  isLowConfidence : Bool
  issues : Issues
  issueCount : Nat
  deriving DecidableEq, Repr

/-- `analyzeText(text, paragraphs)`: the main analysis pipeline. -/
def analyzeText (text : String) (paragraphs : List String) : AnalysisResult :=
  let sentences := extractSentences text
  let words := extractWords text
  let totalSyllables := (words.map countSyllables).sum
  let complexWordData := identifyComplexWords words
  let avgSentenceLength : ℚ :=
    if sentences.length > 0 then (words.length : ℚ) / sentences.length else 0
  let fkGrade := calculateFleschKincaid words.length sentences.length totalSyllables
  let level := classifyReadability avgSentenceLength complexWordData.ratio
    (some fkGrade) words.length
  let readingTime := calculateReadingTime words.length level
  let sentenceQuality := classifySentenceQuality avgSentenceLength
  let wordCountCategory := classifyWordCount words.length
  let complexSentences := identifyComplexSentences paragraphs
  let denseParagraphs := identifyDenseParagraphs paragraphs
  { level := level
    grade := fkGrade
    readingTime := readingTime
    wordCount := words.length
    wordCountCategory := wordCountCategory
    sentenceCount := sentences.length
    avgSentenceLength := jsRound10 avgSentenceLength
    sentenceQuality := sentenceQuality
    isLowConfidence := decide (words.length < 100)
    issues := { complexSentences := complexSentences, denseParagraphs := denseParagraphs }
    issueCount := complexSentences.length + denseParagraphs.length }

/-- The analyzer entry points applied to a possibly-null `text` argument
(`none` models JS `null`).  The `Except` result models JS exception
propagation: the translation is a constant `.ok` because the source
throws nowhere — the falsy-input guards of `extractSentences`
(`if (!text || ...) return []`) and `extractWords` (`if (!text) return []`)
intercept `null` before any method is invoked on it, and `analyzeText`
itself touches `text` only through those two functions. -/
def extractSentencesNullable : Option String → List String
  | none => []
  | some t => extractSentences t

def extractWordsNullable : Option String → List String
  | none => []
  | some t => extractWords t

def analyzeTextNullable (text : Option String) (paragraphs : List String) :
    Except String AnalysisResult :=
  let sentences := extractSentencesNullable text
  let words := extractWordsNullable text
  let totalSyllables := (words.map countSyllables).sum
  let complexWordData := identifyComplexWords words
  let avgSentenceLength : ℚ :=
    if sentences.length > 0 then (words.length : ℚ) / sentences.length else 0
  let fkGrade := calculateFleschKincaid words.length sentences.length totalSyllables
  let level := classifyReadability avgSentenceLength complexWordData.ratio
    (some fkGrade) words.length
  let readingTime := calculateReadingTime words.length level
  let sentenceQuality := classifySentenceQuality avgSentenceLength
  let wordCountCategory := classifyWordCount words.length
  let complexSentences := identifyComplexSentences paragraphs
  let denseParagraphs := identifyDenseParagraphs paragraphs
  Except.ok
    { level := level
      grade := fkGrade
      readingTime := readingTime
      wordCount := words.length
      wordCountCategory := wordCountCategory
      sentenceCount := sentences.length
      avgSentenceLength := jsRound10 avgSentenceLength
      sentenceQuality := sentenceQuality
      isLowConfidence := decide (words.length < 100)
      issues := { complexSentences := complexSentences, denseParagraphs := denseParagraphs }
      issueCount := complexSentences.length + denseParagraphs.length }

/-! ## Specification-side devices

`sentenceTable` enumerates every sentence the complex-sentence detector
visits, with its global sentence index and owning paragraph index;
`denseSpecTriggers` is the spec's wording of the three density triggers
(integer arithmetic instead of the rational average). -/

/-- All sentences of one paragraph, tagged with global and paragraph
indices starting at `gIdx`/`pIdx`. -/
def sentenceTableOfPara (gIdx pIdx : Nat) : List String → List (Nat × Nat × String)
  | [] => []
  | s :: rest => (gIdx, pIdx, s) :: sentenceTableOfPara (gIdx + 1) pIdx rest

def sentenceTableGo (gIdx pIdx : Nat) : List String → List (Nat × Nat × String)
  | [] => []
  | para :: rest =>
    let pSentences := extractSentences para
    sentenceTableOfPara gIdx pIdx pSentences ++
      sentenceTableGo (gIdx + pSentences.length) (pIdx + 1) rest

/-- Every sentence visited by `identifyComplexSentences(paragraphs)`,
with its global sentence index and its paragraph index. -/
def sentenceTable (paragraphs : List String) : List (Nat × Nat × String) :=
  sentenceTableGo 0 0 paragraphs

/-- The per-sentence emission decision of `identifyComplexSentences`. -/
def complexFn : Nat × Nat × String → Option ComplexSentenceIssue :=
  fun e =>
    if countClauses e.2.2 ≥ 3 ∧ (extractWords e.2.2).length ≥ 20 then
      some { text := e.2.2, clauseCount := countClauses e.2.2,
             wordCount := (extractWords e.2.2).length, index := e.1,
             paragraphIndex := e.2.1, isComplex := true }
    else none

/-- The spec's three density triggers, in integer form: the rational
condition `words/sentences ≥ 25` becomes `25 * sentences ≤ words` with a
positive sentence count. -/
def denseSpecTriggers (w s : Nat) : Prop :=
  (100 ≤ w ∧ 4 ≤ s) ∨ 150 ≤ w ∨ (80 ≤ w ∧ 0 < s ∧ 25 * s ≤ w)

instance (w s : Nat) : Decidable (denseSpecTriggers w s) := by
  unfold denseSpecTriggers
  exact inferInstance

/-- A sentence with three clauses (an anchored `because`, a `, while`
connective and the main clause) and 26 words. -/
def csWitnessPara : String :=
  "Because the weather was cold, the children stayed inside the old house, and they played quiet games, while the rain kept falling on the roof outside."

/-- One 80-word single-sentence paragraph: dense through the
complex-and-long trigger (80+ words, average sentence length 80 ≥ 25). -/
def densePara : String :=
  "the quick brown fox jumps over the lazy sleeping dog the quick brown fox jumps over the lazy sleeping dog the quick brown fox jumps over the lazy sleeping dog the quick brown fox jumps over the lazy sleeping dog the quick brown fox jumps over the lazy sleeping dog the quick brown fox jumps over the lazy sleeping dog the quick brown fox jumps over the lazy sleeping dog the quick brown fox jumps over the lazy sleeping dog."

/-! ## Theorems -/

theorem mem_mapWithIndex {f : Nat → α → β} {b : β} :
    ∀ {n : Nat} {l : List α},
      b ∈ mapWithIndex f n l ↔ ∃ i a, l.get? i = some a ∧ b = f (n + i) a := by
  intro n l
  induction l generalizing n with
  | nil => simp [mapWithIndex]
  | cons x xs ih =>
    simp only [mapWithIndex, List.mem_cons, ih]
    constructor
    · rintro (rfl | ⟨i, a, hget, rfl⟩)
      · exact ⟨0, x, rfl, by simp⟩
      · exact ⟨i + 1, a, by simpa using hget, by ring_nf⟩
    · rintro ⟨i, a, hget, rfl⟩
      cases i with
      | zero =>
        left
        simp only [List.get?] at hget
        cases hget
        simp
      | succ j =>
        right
        exact ⟨j, a, by simpa using hget, by ring_nf⟩

theorem complexOfSentences_eq_filterMap (pIdx : Nat) :
    ∀ (gIdx : Nat) (ss : List String),
      complexOfSentences gIdx pIdx ss =
        (sentenceTableOfPara gIdx pIdx ss).filterMap complexFn := by
  intro gIdx ss
  induction ss generalizing gIdx with
  | nil => simp [complexOfSentences, sentenceTableOfPara]
  | cons s rest ih =>
    simp only [complexOfSentences, sentenceTableOfPara, List.filterMap_cons, complexFn]
    by_cases h : countClauses s ≥ 3 ∧ (extractWords s).length ≥ 20
    · simp [h, ih]
    · simp [h, ih]

theorem complexOfParagraphs_eq_filterMap :
    ∀ (gIdx pIdx : Nat) (ps : List String),
      complexOfParagraphs gIdx pIdx ps =
        (sentenceTableGo gIdx pIdx ps).filterMap complexFn := by
  intro gIdx pIdx ps
  induction ps generalizing gIdx pIdx with
  | nil => simp [complexOfParagraphs, sentenceTableGo]
  | cons para rest ih =>
    simp only [complexOfParagraphs, sentenceTableGo, List.filterMap_append]
    rw [complexOfSentences_eq_filterMap, ih]

theorem identifyComplexSentences_eq_filterMap (ps : List String) :
    identifyComplexSentences ps = (sentenceTable ps).filterMap complexFn :=
  complexOfParagraphs_eq_filterMap 0 0 ps

theorem denseRecord_isDense_iff (i : Nat) (para : String) :
    ((denseRecord i para).isDense = true) ↔
      denseSpecTriggers (extractWords para).length (extractSentences para).length := by
  have key : ∀ (w s : Nat),
      ((25 : ℚ) ≤ (if s > 0 then (w : ℚ) / s else 0)) ↔ (0 < s ∧ 25 * s ≤ w) := by
    intro w s
    rcases Nat.eq_zero_or_pos s with hs | hs
    · subst hs
      simp
    · rw [if_pos hs]
      have hsq : (0 : ℚ) < s := by exact_mod_cast hs
      rw [le_div_iff₀ hsq]
      constructor
      · intro h
        exact ⟨hs, by exact_mod_cast h⟩
      · intro h
        exact_mod_cast h.2
  simp only [denseRecord, denseSpecTriggers, decide_eq_true_eq, ge_iff_le]
  rw [key]

theorem denseRecord_index (i : Nat) (para : String) :
    (denseRecord i para).index = i := rfl

theorem denseRecord_text (i : Nat) (para : String) :
    (denseRecord i para).text = para := rfl

/-! ## Helper lemmas for the syllable floor -/

theorem length_dropWhile_le (p : Char → Bool) :
    ∀ (l : List Char), (l.dropWhile p).length ≤ l.length := by
  intro l
  induction l with
  | nil => simp
  | cons c rest ih =>
    rw [List.dropWhile]
    cases p c with
    | true => exact le_trans ih (by simp)
    | false => simp

theorem trimL_length_le (l : List Char) : (trimL l).length ≤ l.length := by
  unfold trimL
  calc ((l.dropWhile jsWs).reverse.dropWhile jsWs).reverse.length
      = ((l.dropWhile jsWs).reverse.dropWhile jsWs).length := List.length_reverse _
    _ ≤ (l.dropWhile jsWs).reverse.length := length_dropWhile_le _ _
    _ = (l.dropWhile jsWs).length := List.length_reverse _
    _ ≤ l.length := length_dropWhile_le _ _

theorem countSyllablesCore_pos (w : List Char) : 1 ≤ countSyllablesCore w := by
  simp only [countSyllablesCore]
  exact le_max_left 1 _

theorem lookup_ge_one (l : List (String × Nat)) (hl : ∀ p ∈ l, 1 ≤ p.2) :
    ∀ k n, l.lookup k = some n → 1 ≤ n := by
  intro k n h
  induction l with
  | nil => simp [List.lookup] at h
  | cons p t ih =>
    rw [List.lookup] at h
    by_cases hk : (k == p.1) = true
    · rw [hk] at h
      cases h
      exact hl p (List.mem_cons_self p t)
    · rw [Bool.not_eq_true] at hk
      rw [hk] at h
      exact ih (fun q hq => hl q (List.mem_cons_of_mem p hq)) h

theorem countSyllablesPart_pos (p : List Char) (hp : p ≠ []) :
    1 ≤ countSyllablesPart p := by
  rw [countSyllablesPart, if_neg hp]
  by_cases hlen : (trimL (p.map lowerC)).length ≤ 2
  · rw [if_pos hlen]
  · rw [if_neg hlen]
    cases hlook : SYLLABLE_OVERRIDES.lookup (String.mk (trimL (p.map lowerC))) with
    | some n => exact lookup_ge_one SYLLABLE_OVERRIDES (by decide) _ n hlook
    | none => exact countSyllablesCore_pos _

theorem splitOnChar_exists_nonempty (sep : Char) :
    ∀ (l : List Char), (∃ c ∈ l, c ≠ sep) →
      ∃ p ∈ splitOnChar sep l, p ≠ [] := by
  intro l h
  induction l with
  | nil => simp at h
  | cons c rest ih =>
    by_cases hc : c = sep
    · subst hc
      rw [splitOnChar, if_pos rfl]
      obtain ⟨d, hd, hdne⟩ := h
      rcases List.mem_cons.mp hd with hd | hd
      · exact absurd hd hdne
      · obtain ⟨p, hp, hpne⟩ := ih ⟨d, hd, hdne⟩
        exact ⟨p, List.mem_cons_of_mem _ hp, hpne⟩
    · rw [splitOnChar, if_neg hc]
      cases hsplit : splitOnChar sep rest with
      | nil => exact ⟨[c], by simp, by simp⟩
      | cons h0 t => exact ⟨c :: h0, by simp, by simp⟩

/-- Away from the two prototype-chain names, the per-part JS value is
the numeric per-part count. -/
theorem countSyllablesPartJS_num (p : List Char)
    (hp : ¬hitsPrototype (String.mk (trimL (p.map lowerC)))) :
    countSyllablesPartJS p = SyllableJS.num (countSyllablesPart p) := by
  rw [countSyllablesPartJS, countSyllablesPart]
  by_cases h0 : p = []
  · rw [if_pos h0, if_pos h0]
  · rw [if_neg h0, if_neg h0]
    by_cases hlen : (trimL (p.map lowerC)).length ≤ 2
    · rw [if_pos hlen, if_pos hlen]
    · rw [if_neg hlen, if_neg hlen]
      cases hlook : SYLLABLE_OVERRIDES.lookup (String.mk (trimL (p.map lowerC))) with
      | some n => simp only [hlook]
      | none =>
        simp only [hlook]
        rw [if_neg hp]

/-- Folding `jsAdd` over a list of JS numbers is numeric addition. -/
theorem foldl_jsAdd_num (f : List Char → Nat) :
    ∀ (l : List (List Char)) (a : Nat),
      (l.map (fun p => SyllableJS.num (f p))).foldl jsAdd (SyllableJS.num a) =
        SyllableJS.num (a + (l.map f).sum) := by
  intro l
  induction l with
  | nil =>
    intro a
    simp
  | cons p t ih =>
    intro a
    simp only [List.map_cons, List.foldl_cons, jsAdd, List.sum_cons]
    rw [ih]
    simp [Nat.add_assoc]

/-- The two reachable `Object.prototype` names make the source return a
truthy non-number: the faithful model records exactly that. -/
theorem countSyllablesJS_prototype_hits :
    countSyllablesJS "constructor" = SyllableJS.nonNumber ∧
    countSyllablesJS "__proto__" = SyllableJS.nonNumber ∧
    countSyllablesJS "self-constructor" = SyllableJS.nonNumber := by
  refine ⟨?_, ?_, ?_⟩ <;> decide

/-! ## Claim theorems -/

/-- C1: for every call `analyzeText(text, paragraphs)` whose extracted
word count is less than 100, the returned result has `level == "Medium"`
and `isLowConfidence == true`, regardless of the computed grade. -/
theorem claim_C1_lowWordCount_forcesMedium (text : String) (paragraphs : List String)
    (h : (extractWords text).length < 100) :
    (analyzeText text paragraphs).level = "Medium" ∧
    (analyzeText text paragraphs).isLowConfidence = true := by
  constructor
  · simp only [analyzeText, classifyReadability, if_pos h]
  · simp only [analyzeText, decide_eq_true_eq]
    exact h

theorem claim_C1_witness :
    (extractWords "").length < 100 ∧
    (analyzeText "" []).level = "Medium" ∧
    (analyzeText "" []).isLowConfidence = true :=
  ⟨by decide, claim_C1_lowWordCount_forcesMedium "" [] (by decide)⟩

/-- C2: `calculateFleschKincaid` returns 0 when either count is 0 and
otherwise `0.39·(words/sentences) + 11.8·(syllables/words) − 15.59`,
rounded to one decimal place and floored at 0. -/
theorem claim_C2_fleschKincaid (w s y : Nat) :
    (s = 0 ∨ w = 0 → calculateFleschKincaid w s y = 0) ∧
    (s ≠ 0 → w ≠ 0 →
      calculateFleschKincaid w s y =
        max 0 (jsRound10 (0.39 * ((w : ℚ) / s) + 11.8 * ((y : ℚ) / w) - 15.59))) := by
  constructor
  · intro h
    rw [calculateFleschKincaid, if_pos (by tauto)]
  · intro hs hw
    rw [calculateFleschKincaid, if_neg (by tauto)]

theorem claim_C2_witness : calculateFleschKincaid 150 10 220 = 7.6 := by
  rw [(claim_C2_fleschKincaid 150 10 220).2 (by decide) (by decide)]
  norm_num [jsRound10, jsRound]

/-- C3: with at least 100 words and a grade available, the grade bands
map `grade ≤ 6` to Easy, `grade ≤ 12` to Medium and higher grades to
Hard, except that word counts below 300 downgrade a Hard verdict with
grade under 15 to Medium. -/
theorem claim_C3_gradeBands (asl cr g : ℚ) (wc : Nat) (h : 100 ≤ wc) :
    classifyReadability asl cr (some g) wc =
      (if wc < 300 ∧ 12 < g ∧ g < 15 then "Medium"
       else if g ≤ 6 then "Easy"
       else if g ≤ 12 then "Medium"
       else "Hard") := by
  simp only [classifyReadability, if_neg (show ¬wc < 100 by omega)]
  by_cases h6 : g ≤ 6
  · have hnot : ¬(wc < 300 ∧ 12 < g ∧ g < 15) := by
      rintro ⟨_, hg, _⟩
      linarith
    simp [h6, hnot]
  · by_cases h12 : g ≤ 12
    · have hnot : ¬(wc < 300 ∧ 12 < g ∧ g < 15) := by
        rintro ⟨_, hg, _⟩
        linarith
      simp [h6, h12, hnot]
    · by_cases hsoft : wc < 300 ∧ g < 15
      · simp [h6, h12, hsoft, show 12 < g by linarith]
      · have hnot : ¬(wc < 300 ∧ 12 < g ∧ g < 15) := by
          rintro ⟨hwc, _, hg⟩
          exact hsoft ⟨hwc, hg⟩
        rw [if_neg h6, if_neg h12, if_neg hnot,
          if_neg (show ¬(wc < 300 ∧ ("Hard" : String) = "Hard" ∧ g < 15) by
            rintro ⟨hwc, _, hg⟩
            exact hsoft ⟨hwc, hg⟩)]

theorem claim_C3_witness :
    classifyReadability 0 0 (some 6) 100 = "Easy" ∧
    classifyReadability 0 0 (some 6.1) 1000 = "Medium" ∧
    classifyReadability 0 0 (some 12) 1000 = "Medium" ∧
    classifyReadability 0 0 (some 12.1) 1000 = "Hard" ∧
    classifyReadability 0 0 (some 12.1) 200 = "Medium" := by
  refine ⟨?_, ?_, ?_, ?_, ?_⟩
  · rw [claim_C3_gradeBands 0 0 6 100 (by norm_num)]
    norm_num
  · rw [claim_C3_gradeBands 0 0 6.1 1000 (by norm_num)]
    norm_num
  · rw [claim_C3_gradeBands 0 0 12 1000 (by norm_num)]
    norm_num
  · rw [claim_C3_gradeBands 0 0 12.1 1000 (by norm_num)]
    norm_num
  · rw [claim_C3_gradeBands 0 0 12.1 200 (by norm_num)]
    norm_num

/-- C6: the sentence segmenter keeps
`"Dr. Smith went to Washington, D.C. on Monday."` in one piece: the
abbreviation protection handles `Dr.` and the final `C.` of `D.C.`, and
the period of `D.` (followed by a letter, not whitespace) never matches
the split pattern. -/
theorem claim_C6_drSmith :
    extractSentences "Dr. Smith went to Washington, D.C. on Monday." =
      ["Dr. Smith went to Washington, D.C. on Monday."] := by
  decide

/-- C10: the result of `analyzeText` carries an `issueCount` field equal
to the number of complex-sentence issues plus the number of
dense-paragraph issues. -/
theorem claim_C10_issueCount (text : String) (paragraphs : List String) :
    (analyzeText text paragraphs).issueCount =
      (analyzeText text paragraphs).issues.complexSentences.length +
      (analyzeText text paragraphs).issues.denseParagraphs.length := rfl

/-- C4: a sentence is emitted by `identifyComplexSentences` exactly when
its clause count is at least 3 and its extracted word count is at least
20; every emitted issue corresponds to a visited sentence (global index,
paragraph index, text) carrying its clause and word counts, and every
visited sentence meeting both thresholds is emitted. -/
theorem claim_C4_complexSentences_iff (ps : List String) :
    (∀ issue ∈ identifyComplexSentences ps,
       (issue.index, issue.paragraphIndex, issue.text) ∈ sentenceTable ps ∧
       countClauses issue.text ≥ 3 ∧ (extractWords issue.text).length ≥ 20 ∧
       issue.clauseCount = countClauses issue.text ∧
       issue.wordCount = (extractWords issue.text).length) ∧
    (∀ g p s, (g, p, s) ∈ sentenceTable ps →
       countClauses s ≥ 3 → (extractWords s).length ≥ 20 →
       ({ text := s, clauseCount := countClauses s,
          wordCount := (extractWords s).length, index := g, paragraphIndex := p,
          isComplex := true } : ComplexSentenceIssue) ∈ identifyComplexSentences ps) := by
  constructor
  · intro issue hmem
    rw [identifyComplexSentences_eq_filterMap] at hmem
    obtain ⟨e, he, hfe⟩ := List.mem_filterMap.mp hmem
    unfold complexFn at hfe
    by_cases hc : countClauses e.2.2 ≥ 3 ∧ (extractWords e.2.2).length ≥ 20
    · rw [if_pos hc] at hfe
      cases hfe
      exact ⟨by simpa using he, hc.1, hc.2, rfl, rfl⟩
    · rw [if_neg hc] at hfe
      cases hfe
  · intro g p s hmem h3 h20
    rw [identifyComplexSentences_eq_filterMap]
    exact List.mem_filterMap.mpr ⟨(g, p, s), hmem, by
      unfold complexFn
      rw [if_pos ⟨h3, h20⟩]⟩

set_option maxRecDepth 100000 in
theorem claim_C4_witness :
    ({ text := csWitnessPara, clauseCount := countClauses csWitnessPara,
       wordCount := (extractWords csWitnessPara).length, index := 0,
       paragraphIndex := 0, isComplex := true } : ComplexSentenceIssue) ∈
      identifyComplexSentences [csWitnessPara] :=
  (claim_C4_complexSentences_iff [csWitnessPara]).2 0 0 csWitnessPara
    (by decide) (by decide) (by decide)

/-- C5: a paragraph is flagged dense exactly when one of the three
triggers holds: 100+ words with 4+ sentences, or 150+ words, or 80+
words with an average sentence length of at least 25 words. -/
theorem claim_C5_denseParagraphs_iff (ps : List String) :
    (∀ issue ∈ identifyDenseParagraphs ps,
       ps.get? issue.index = some issue.text ∧
       denseSpecTriggers (extractWords issue.text).length
         (extractSentences issue.text).length) ∧
    (∀ i para, ps.get? i = some para →
       denseSpecTriggers (extractWords para).length (extractSentences para).length →
       ∃ issue ∈ identifyDenseParagraphs ps, issue.index = i ∧ issue.text = para) := by
  constructor
  · intro issue hmem
    rw [identifyDenseParagraphs] at hmem
    obtain ⟨hmm, hdense⟩ := List.mem_filter.mp hmem
    obtain ⟨i, para, hget, rfl⟩ := mem_mapWithIndex.mp hmm
    simp only [Nat.zero_add] at hdense ⊢
    rw [denseRecord_index, denseRecord_text]
    exact ⟨hget, (denseRecord_isDense_iff i para).mp hdense⟩
  · intro i para hget htrig
    refine ⟨denseRecord i para, ?_, denseRecord_index i para, denseRecord_text i para⟩
    rw [identifyDenseParagraphs]
    refine List.mem_filter.mpr ⟨?_, (denseRecord_isDense_iff i para).mpr htrig⟩
    exact mem_mapWithIndex.mpr ⟨i, para, hget, by rw [Nat.zero_add]⟩

set_option maxRecDepth 100000 in
theorem claim_C5_witness :
    ∃ issue ∈ identifyDenseParagraphs [densePara],
      issue.index = 0 ∧ issue.text = densePara :=
  (claim_C5_denseParagraphs_iff [densePara]).2 0 densePara rfl (by decide)

/-- C9: every `DenseParagraphIssue` addresses its source paragraph:
indexing the input list at `issue.index` returns exactly `issue.text`. -/
theorem claim_C9_denseIssue_roundTrip (ps : List String) :
    ∀ issue ∈ identifyDenseParagraphs ps,
      ps.get? issue.index = some issue.text := by
  intro issue hmem
  rw [identifyDenseParagraphs] at hmem
  obtain ⟨hmm, _⟩ := List.mem_filter.mp hmem
  obtain ⟨i, para, hget, rfl⟩ := mem_mapWithIndex.mp hmm
  rw [denseRecord_index, denseRecord_text, Nat.zero_add]
  exact hget

set_option maxRecDepth 100000 in
theorem claim_C9_witness :
    [densePara].get? (denseRecord 0 densePara).index =
      some (denseRecord 0 densePara).text :=
  claim_C9_denseIssue_roundTrip [densePara] (denseRecord 0 densePara)
    (List.mem_filter.mpr
      ⟨mem_mapWithIndex.mpr ⟨0, densePara, rfl, by rw [Nat.zero_add]⟩,
       (denseRecord_isDense_iff 0 densePara).mpr (by decide)⟩)

/-- C7 counterexample: the empty string is falsy in JS, so
`countSyllables('')` returns 0, not a value ≥ 1 (and not 1, despite its
length being ≤ 2). -/
theorem claim_C7_counterexample : countSyllables "" = 0 := rfl

/-- C7 (amended): `countSyllables` returns a JS number of at least 1 for
every nonempty word whose trimmed lowercased form is not a run of three
or more hyphens and for which neither it nor any of its
hyphen-separated parts collides with a reachable `Object.prototype`
property name (`constructor`, `__proto__` — there the prototype-chain
lookup returns a truthy non-number); nonempty words of length at most 2
return exactly the number 1; the vowel-pattern body (every corrective
decrement included) is floored at 1; the empty string returns 0. -/
theorem claim_C7_amended (word : String) :
    (word ≠ "" →
      ¬(3 ≤ (trimL (word.toList.map lowerC)).length ∧
          ∀ c ∈ trimL (word.toList.map lowerC), c = '-') →
      ¬hitsPrototype (String.mk (trimL (word.toList.map lowerC))) →
      (∀ p ∈ splitOnChar '-' (trimL (word.toList.map lowerC)),
        ¬hitsPrototype (String.mk (trimL (p.map lowerC)))) →
      ∃ n, countSyllablesJS word = SyllableJS.num n ∧ 1 ≤ n) ∧
    (word ≠ "" → word.length ≤ 2 → countSyllablesJS word = SyllableJS.num 1) ∧
    (∀ w, 1 ≤ countSyllablesCore w) ∧
    countSyllablesJS "" = SyllableJS.num 0 := by
  refine ⟨?_, ?_, countSyllablesCore_pos, rfl⟩
  · intro hne hnot hproto hparts
    rw [countSyllablesJS, if_neg hne]
    by_cases hlen : (trimL (word.toList.map lowerC)).length ≤ 2
    · rw [if_pos hlen]
      exact ⟨1, rfl, le_refl 1⟩
    · rw [if_neg hlen]
      cases hlook :
          SYLLABLE_OVERRIDES.lookup (String.mk (trimL (word.toList.map lowerC))) with
      | some n =>
        simp only [hlook]
        exact ⟨n, rfl, lookup_ge_one SYLLABLE_OVERRIDES (by decide) _ n hlook⟩
      | none =>
        simp only [hlook]
        rw [if_neg hproto]
        by_cases hhyp : (trimL (word.toList.map lowerC)).contains '-'
        · rw [if_pos hhyp]
          have hmap : (splitOnChar '-' (trimL (word.toList.map lowerC))).map
                countSyllablesPartJS
              = (splitOnChar '-' (trimL (word.toList.map lowerC))).map
                  (fun p => SyllableJS.num (countSyllablesPart p)) :=
            List.map_congr_left (fun p hp => countSyllablesPartJS_num p (hparts p hp))
          rw [hmap, foldl_jsAdd_num countSyllablesPart _ 0]
          refine ⟨_, rfl, ?_⟩
          rw [Nat.zero_add]
          have hex : ∃ c ∈ trimL (word.toList.map lowerC), c ≠ '-' := by
            by_contra hall
            push_neg at hall
            exact hnot ⟨by omega, hall⟩
          obtain ⟨part, hp, hpne⟩ :=
            splitOnChar_exists_nonempty '-' (trimL (word.toList.map lowerC)) hex
          have hmem : countSyllablesPart part ∈
              ((splitOnChar '-' (trimL (word.toList.map lowerC))).map
                countSyllablesPart) :=
            List.mem_map_of_mem countSyllablesPart hp
          exact le_trans (countSyllablesPart_pos part hpne)
            (List.single_le_sum (fun x _ => Nat.zero_le x) _ hmem)
        · rw [if_neg hhyp]
          exact ⟨_, rfl, countSyllablesCore_pos _⟩
  · intro hne hlen2
    rw [countSyllablesJS, if_neg hne, if_pos ?_]
    have h1 : (trimL (word.toList.map lowerC)).length ≤
        (word.toList.map lowerC).length := trimL_length_le _
    have h2 : (word.toList.map lowerC).length = word.length := by
      rw [List.length_map]
      rfl
    omega

theorem claim_C7_witness :
    (∃ n, countSyllablesJS "go" = SyllableJS.num n ∧ 1 ≤ n) ∧
    countSyllablesJS "go" = SyllableJS.num 1 :=
  ⟨(claim_C7_amended "go").1 (by decide) (by decide) (by decide) (by decide),
   (claim_C7_amended "go").2.1 (by decide) (by decide)⟩

/-- C8 counterexample: calling the entry point with a null text does not
raise an invalid-argument error; the falsy-input guards silently coerce
it and the call succeeds with exactly the degraded result an empty text
produces. -/
theorem claim_C8_counterexample :
    analyzeTextNullable none [] = Except.ok (analyzeText "" []) := rfl

/-- C8 (amended): on a null text the analyzer does not fail fast: it
returns a normal (non-error) result with zero word and sentence counts,
level `Medium` and the low-confidence flag set — degraded output, not an
invalid-argument error. -/
theorem claim_C8_amended (paragraphs : List String) :
    ∃ r, analyzeTextNullable none paragraphs = Except.ok r ∧
      r.wordCount = 0 ∧ r.sentenceCount = 0 ∧ r.level = "Medium" ∧
      r.isLowConfidence = true := by
  exact ⟨_, rfl, rfl, rfl, rfl, rfl⟩

end ReadScore
